import Mathlib

set_option autoImplicit false
set_option maxRecDepth 8192

namespace EdgeAI

/-!
Shallow embedding of the real-time event pipeline of the
security-surveillance system: alert cooldowns (`modules/alerts.py`),
zone geometry (`modules/zones.py`), the event recorder and storage
manager (`modules/recorder.py`), the smart motion filter
(`modules/motion.py`), camera reconnection (`modules/camera.py`) and
the behavioral anomaly checker (`modules/behavior.py`).

Modelling conventions: Python floats used as times, durations, sizes
and thresholds are modelled as rationals; Python `dict`s as
association lists; video frames as an abstract type parameter;
external effects (GPIO, the video writer, `os.remove`, `cv2` reads)
as explicit environment inputs recording their outcomes.
-/

/-- Association-list lookup, modelling Python `dict` read access
(`d[k]` guarded by `k in d`, or `d.get(k)`). -/
def alookup {κ β : Type} [DecidableEq κ] (k : κ) : List (κ × β) → Option β
  | [] => none
  | (k', v) :: rest => if k = k' then some v else alookup k rest

/-- Association-list update, modelling Python `d[k] = v`. -/
def aset {κ β : Type} [DecidableEq κ] (k : κ) (v : β) : List (κ × β) → List (κ × β)
  | [] => [(k, v)]
  | (k', v') :: rest => if k = k' then (k, v) :: rest else (k', v') :: aset k v rest

@[simp] theorem alookup_aset_self {κ β : Type} [DecidableEq κ] (k : κ) (v : β)
    (l : List (κ × β)) : alookup k (aset k v l) = some v := by
  induction l with
  | nil => simp [alookup, aset]
  | cons hd tl ih =>
    by_cases h : k = hd.1
    · simp [alookup, aset, h]
    · simp [alookup, aset, h, ih]

@[simp] theorem alookup_aset_ne {κ β : Type} [DecidableEq κ] (k k' : κ) (v : β)
    (l : List (κ × β)) (h : k' ≠ k) : alookup k' (aset k v l) = alookup k' l := by
  induction l with
  | nil => simp [alookup, aset, h]
  | cons hd tl ih =>
    by_cases hk : k = hd.1
    · subst hk
      simp [alookup, aset, h]
    · by_cases hk' : k' = hd.1
      · simp [alookup, aset, hk, hk']
      · simp [alookup, aset, hk, hk', ih]

/-! ### Alert system (`modules/alerts.py`) -/

/-- `AlertLevel` enum (INFO = 1, WARNING = 2, CRITICAL = 3). -/
inductive AlertLevel where
  | info
  | warning
  | critical
deriving DecidableEq, Repr

/-- The `alert_data` dict built inside `AlertSystem.trigger_alert`. -/
structure Alert where
  zone : String
  level : AlertLevel
  timestamp : ℚ
  duration : ℚ
deriving DecidableEq, Repr

/-- The mutable alert state of `AlertSystem`: `active_alerts`,
`alert_history`, `cooldown_timers`. -/
structure AlertState where
  activeAlerts : List (String × Alert)
  alertHistory : List Alert
  cooldownTimers : List (String × ℚ)
deriving DecidableEq, Repr

/-- `AlertSystem.trigger_alert(zone_name, level, duration_sec, cooldown_sec)`.
`now` stands for the `time.time()` call at the top of the method.  The
GPIO / simulated actuator invocation only prints or drives pins, so it
does not appear in the state. -/
def triggerAlert (s : AlertState) (zoneName : String) (level : AlertLevel)
    (durationSec cooldownSec now : ℚ) : Bool × AlertState :=
  let suppressed :=
    match alookup zoneName s.cooldownTimers with
    | some lastAlertTime => decide (now - lastAlertTime < cooldownSec)
    | none => false
  if suppressed then (false, s)
  else
    let alertData : Alert := ⟨zoneName, level, now, durationSec⟩
    (true,
      { activeAlerts := aset zoneName alertData s.activeAlerts
        alertHistory := s.alertHistory ++ [alertData]
        cooldownTimers := aset zoneName now s.cooldownTimers })

/-! ### Zones (`modules/zones.py`) -/

/-- A `Zone`.  `inPoly` abstracts the external geometric test
`cv2.pointPolygonTest(self.points, p, False) >= 0` on the zone's
polygon; `contains_point` and `contains_bbox` are built on top of it
exactly as in the source. -/
structure Zone where
  name : String
  inPoly : Int × Int → Bool
  enabled : Bool

/-- `Zone.contains_point`. -/
def Zone.containsPoint (z : Zone) (p : Int × Int) : Bool :=
  if !z.enabled then false else z.inPoly p

/-- The `corners` list built inside `Zone.contains_bbox`:
top-left, top-right, bottom-left, bottom-right. -/
def bboxCorners (x y w h : Int) : List (Int × Int) :=
  [(x, y), (x + w, y), (x, y + h), (x + w, y + h)]

/-- `Zone.contains_bbox(bbox, overlap_threshold)`.  `Int.fdiv` is
Python's floor division `//`. -/
def Zone.containsBbox (z : Zone) (bbox : Int × Int × Int × Int)
    (overlapThreshold : ℚ) : Bool :=
  if !z.enabled then false
  else
    let x := bbox.1
    let y := bbox.2.1
    let w := bbox.2.2.1
    let h := bbox.2.2.2
    let center := (x + w.fdiv 2, y + h.fdiv 2)
    if z.containsPoint center then true
    else
      let overlappingCorners :=
        ((bboxCorners x y w h).filter fun c => z.containsPoint c).length
      decide (overlapThreshold ≤ (overlappingCorners : ℚ) / 4)

/-! ### Event recorder (`modules/recorder.py`, class `VideoRecorder`) -/

/-- One `deque(maxlen).append`: when the deque is full the oldest
(leftmost) entry is evicted. -/
def dequeAppend {α : Type} (maxlen : Nat) (buf : List α) (f : α) : List α :=
  let b := buf ++ [f]
  b.drop (b.length - maxlen)

/-- `buffer_size = int(fps * pre_buffer_seconds)` from
`VideoRecorder.__init__`. -/
def bufferSize (fps preBufferSeconds : Nat) : Nat :=
  fps * preBufferSeconds

/-- The per-session fields of `VideoRecorder`: `current_filename`
(identified here by a number), the frames written to the open
`cv2.VideoWriter`, `recording_start_time`, `last_detection_time` and
`frame_count`.  In the source they are optional fields that are all
populated exactly while `is_recording` is true; the embedding packages
them as the payload of `RecorderState.session`. -/
structure Session (Frame : Type) where
  filename : Nat
  written : List Frame
  startTime : ℚ
  lastDetectionTime : ℚ
  frameCount : Nat
deriving DecidableEq

/-- `VideoRecorder` state: the circular pre-event `frame_buffer` plus
the active session (`is_recording` is `session.isSome`). -/
structure RecorderState (Frame : Type) where
  buffer : List Frame
  session : Option (Session Frame)
deriving DecidableEq

/-- The recorder configuration fields used by the claims. -/
structure RecorderCfg where
  preBufferCap : Nat
  postBufferSeconds : ℚ
  maxRecordingDuration : ℚ
deriving DecidableEq

/-- `VideoRecorder.add_frame`: always appends a copy of the frame to
the circular buffer (`frame.copy()` is the identity under value
semantics). -/
def addFrame {Frame : Type} (cfg : RecorderCfg) (s : RecorderState Frame)
    (f : Frame) : RecorderState Frame :=
  { s with buffer := dequeAppend cfg.preBufferCap s.buffer f }

/-- `VideoRecorder.start_recording`.  `fname` is the generated
timestamped filename, `writerOk` the outcome of
`cv2.VideoWriter.isOpened()`, `now` the `time.time()` calls.  While
already recording it only refreshes `last_detection_time` and returns
`None`; otherwise it flushes the whole pre-buffer into the writer,
sets `frame_count = len(frame_buffer)` and returns the filename.  (On
writer failure the source also leaves `current_filename` set; that
dangling name is unobservable here because the filename lives in the
session.) -/
def startRecording {Frame : Type} (s : RecorderState Frame) (fname : Nat)
    (writerOk : Bool) (now : ℚ) : Option Nat × RecorderState Frame :=
  match s.session with
  | some sess =>
      (none, { s with session := some { sess with lastDetectionTime := now } })
  | none =>
      if !writerOk then (none, s)
      else (some fname,
        { s with session := some ⟨fname, s.buffer, now, now, s.buffer.length⟩ })

/-- `VideoRecorder.update_recording(frame, has_detection)`.  Returns
the boolean result, the new state, and `some frame_count` exactly when
this call stopped the recording (`_stop_recording` runs after the
frame was written and counted). -/
def updateRecording {Frame : Type} (cfg : RecorderCfg) (s : RecorderState Frame)
    (f : Frame) (hasDetection : Bool) (now : ℚ) :
    Bool × RecorderState Frame × Option Nat :=
  match s.session with
  | none => (false, s, none)
  | some sess =>
      let written := sess.written ++ [f]
      let fc := sess.frameCount + 1
      let lastDet := if hasDetection then now else sess.lastDetectionTime
      if cfg.postBufferSeconds ≤ now - lastDet ∨
          cfg.maxRecordingDuration ≤ now - sess.startTime then
        (false, { s with session := none }, some fc)
      else
        let sess' := { sess with
          written := written
          lastDetectionTime := lastDet
          frameCount := fc }
        (true, { s with session := some sess' }, none)

/-- The session as advanced by one non-stopping `update_recording`
call: frame written, count incremented, activity refreshed on
detection. -/
def stepSession {Frame : Type} (sess : Session Frame) (f : Frame)
    (hasDetection : Bool) (now : ℚ) : Session Frame :=
  { sess with
    written := sess.written ++ [f]
    lastDetectionTime := if hasDetection then now else sess.lastDetectionTime
    frameCount := sess.frameCount + 1 }

/-- One `update_recording` call in a trace: the frame, the
`has_detection` flag and the `time.time()` value of that call. -/
structure UpdIn (Frame : Type) where
  frame : Frame
  hasDetection : Bool
  now : ℚ
deriving DecidableEq

/-- Run a sequence of `update_recording` calls; the second component
reports `(i, fc)` when call `i` (0-based) stopped the recording with
frame count `fc` at close. -/
def runUpdates {Frame : Type} (cfg : RecorderCfg) :
    RecorderState Frame → List (UpdIn Frame) →
    RecorderState Frame × Option (Nat × Nat)
  | s, [] => (s, none)
  | s, u :: rest =>
      match updateRecording cfg s u.frame u.hasDetection u.now with
      | (_, s', some fc) => ((runUpdates cfg s' rest).1, some (0, fc))
      | (_, s', none) =>
          let t := runUpdates cfg s' rest
          (t.1, t.2.map fun p => (p.1 + 1, p.2))

/-- The value of `last_detection_time` after a run of
`update_recording` calls that started with value `ld0`: the time of
the last call whose `has_detection` was set. -/
def lastDetAfter {Frame : Type} (ld0 : ℚ) (us : List (UpdIn Frame)) : ℚ :=
  us.foldl (fun ld u => if u.hasDetection then u.now else ld) ld0

/-- The stop condition of `update_recording` at call `i` of a trace,
evaluated on the `last_detection_time` as refreshed by that same call:
post-buffer expiry or max-duration cutoff. -/
def stopCondAt {Frame : Type} (cfg : RecorderCfg) (startTime ld0 : ℚ)
    (us : List (UpdIn Frame)) (i : Nat) : Bool :=
  match us[i]? with
  | none => false
  | some u => decide (cfg.postBufferSeconds ≤ u.now - lastDetAfter ld0 (us.take (i + 1)) ∨
      cfg.maxRecordingDuration ≤ u.now - startTime)

/-! ### Smart motion filter (`modules/motion.py`, class `SmartMotionFilter`) -/

/-- The configuration of `SmartMotionFilter` used by
`should_run_detection` (`motion_threshold` is unused there). -/
structure MotionFilterCfg where
  cooldownSeconds : ℚ
  minMotionFrames : Nat
deriving DecidableEq

/-- The mutable state of `SmartMotionFilter`:
`motion_frame_count` and `last_trigger_time` (initially `0`). -/
structure MotionFilterState where
  motionFrameCount : Nat
  lastTriggerTime : ℚ
deriving DecidableEq

/-- `SmartMotionFilter.should_run_detection(has_motion, motion_boxes)`;
the `motion_boxes` argument is unused by the source.  `now` is the
`time.time()` call at the top. -/
def shouldRunDetection (cfg : MotionFilterCfg) (s : MotionFilterState)
    (hasMotion : Bool) (now : ℚ) : Bool × MotionFilterState :=
  if now - s.lastTriggerTime < cfg.cooldownSeconds then (false, s)
  else
    let cnt := if hasMotion then s.motionFrameCount + 1 else 0
    if cfg.minMotionFrames ≤ cnt then (true, ⟨0, now⟩)
    else (false, ⟨cnt, s.lastTriggerTime⟩)

/-- One per-frame call to `should_run_detection` in a trace. -/
structure MCall where
  hasMotion : Bool
  now : ℚ
deriving DecidableEq

/-- Run a sequence of `should_run_detection` calls, collecting the
boolean results in order. -/
def runFilter (cfg : MotionFilterCfg) :
    MotionFilterState → List MCall → MotionFilterState × List Bool
  | s, [] => (s, [])
  | s, c :: rest =>
      let r := shouldRunDetection cfg s c.hasMotion c.now
      let t := runFilter cfg r.2 rest
      (t.1, r.1 :: t.2)

/-! ### Camera capture (`modules/camera.py`, class `CameraCapture`) -/

/-- Outcome of one `self.cap.read()` call: a frame, a failed read
(`ret` false or frame `None`), or a raised exception — the source
handles the last two identically. -/
inductive ReadOutcome (Frame : Type) where
  | ok (f : Frame)
  | fail
  | exn
deriving DecidableEq

/-- Environment outcomes of one `_reconnect` attempt: whether the
attempt raised, whether the reopened capture `isOpened()`, and whether
the post-reconnect test read returned a frame. -/
structure ReconnectEnv where
  raises : Bool
  openOk : Bool
  testReadOk : Bool
deriving DecidableEq

/-- `CameraCapture` state: `is_open`, whether `self.cap` is not
`None`, the cached `last_frame` / `last_ret`, and
`consecutive_failures` (`max_failures` is fixed at 5 in the source). -/
structure CamState (Frame : Type) where
  isOpen : Bool
  capSome : Bool
  lastFrame : Option Frame
  lastRet : Bool
  consecutiveFailures : Nat
deriving DecidableEq

/-- `CameraCapture._reconnect`: `consecutive_failures` is set to 0
first, the handle is released, and after the fixed backoff a fresh
capture is opened.  An exception or a failed open clears `is_open`;
when the capture opens, `is_open` is set `true` only by a successful
test read and otherwise keeps its previous value.  `cap` refers to a
capture object (never back to `None`) in every outcome. -/
def camReconnect {Frame : Type} (s : CamState Frame) (e : ReconnectEnv) :
    CamState Frame :=
  if e.raises then
    { s with consecutiveFailures := 0, isOpen := false, capSome := true }
  else if e.openOk then
    if e.testReadOk then
      { s with consecutiveFailures := 0, isOpen := true, capSome := true }
    else
      { s with consecutiveFailures := 0, capSome := true }
  else
    { s with consecutiveFailures := 0, isOpen := false, capSome := true }

/-- `CameraCapture.read_frame` with threshold `maxFailures`;
`outcome` is this call's `self.cap.read()` result and `e` the
environment of the `_reconnect` attempt, consulted only when the
failure threshold is reached. -/
def readFrame {Frame : Type} (maxFailures : Nat) (s : CamState Frame)
    (outcome : ReadOutcome Frame) (e : ReconnectEnv) :
    (Bool × Option Frame) × CamState Frame :=
  if !s.isOpen || !s.capSome then ((false, none), s)
  else
    match outcome with
    | .ok f => ((true, some f),
        { s with consecutiveFailures := 0, lastFrame := some f, lastRet := true })
    | .fail =>
        let s1 := { s with consecutiveFailures := s.consecutiveFailures + 1 }
        let s2 := if maxFailures ≤ s1.consecutiveFailures then camReconnect s1 e else s1
        match s2.lastFrame with
        | some lf => ((true, some lf), s2)
        | none => ((false, none), s2)
    | .exn =>
        let s1 := { s with consecutiveFailures := s.consecutiveFailures + 1 }
        let s2 := if maxFailures ≤ s1.consecutiveFailures then camReconnect s1 e else s1
        match s2.lastFrame with
        | some lf => ((true, some lf), s2)
        | none => ((false, none), s2)

/-- `CameraCapture.start`: returns `True` and sets `is_open` only when
the capture opens and the test read succeeds; on failure it returns
`False` leaving `is_open` as it was. -/
def camStart {Frame : Type} (s : CamState Frame) (openOk testReadOk : Bool) :
    Bool × CamState Frame :=
  if !openOk then (false, { s with capSome := true })
  else if !testReadOk then (false, { s with capSome := true })
  else (true, { s with capSome := true, isOpen := true })

/-! ### Storage manager (`modules/recorder.py`, class `StorageManager`) -/

/-- One `.mp4` regular file in the recordings directory: modification
time, size in bytes, and whether `os.remove` would succeed on it
(deletion failures are caught and skipped in the source). -/
structure RecFile where
  mtime : ℚ
  size : Nat
  deletable : Bool
deriving DecidableEq

/-- `StorageManager.get_storage_usage`: total bytes of the `.mp4`
files. -/
def totalUsage (files : List RecFile) : Nat :=
  (files.map RecFile.size).sum

/-- Total size of a set of files, on the integers for the exact
comparisons of the deletion loop. -/
def sizeSum (files : List RecFile) : ℤ :=
  ((files.map RecFile.size).sum : ℤ)

/-- `files.sort(key=lambda x: x[1])` — oldest first by modification
time.  The source uses Python's stable sort; any sort by `mtime`
agrees with it up to ties in `mtime`, on which no claim depends. -/
def sortByMtime (files : List RecFile) : List RecFile :=
  files.insertionSort (fun a b => a.mtime ≤ b.mtime)

/-- The deletion loop of `StorageManager.cleanup_old_recordings`:
walk the files oldest-first with the running `freed_space`, breaking
as soon as `usage - freed < max_storage_bytes * 0.8` (the float
constant `0.8` rendered exactly as `4/5`, i.e. `5 * (usage - freed) <
4 * max`), otherwise attempting `os.remove`; a failed removal adds
nothing to `freed_space` and the loop continues with the next file.
Returns the successfully deleted files in deletion order. -/
def deleteLoop (usage maxBytes : Nat) : List RecFile → Nat → List RecFile
  | [], _ => []
  | f :: rest, freed =>
      if 5 * ((usage : ℤ) - freed) < 4 * (maxBytes : ℤ) then []
      else if f.deletable then f :: deleteLoop usage maxBytes rest (freed + f.size)
      else deleteLoop usage maxBytes rest freed

/-- The files `StorageManager.cleanup_old_recordings(force)` deletes:
none when under the limit and not forced, otherwise the result of the
deletion loop over the mtime-sorted listing. -/
def deletedFiles (files : List RecFile) (maxBytes : Nat) (force : Bool) :
    List RecFile :=
  if force = false ∧ totalUsage files < maxBytes then []
  else deleteLoop (totalUsage files) maxBytes (sortByMtime files) 0

/-- The return value of `cleanup_old_recordings`: the number of files
deleted. -/
def cleanupOldRecordings (files : List RecFile) (maxBytes : Nat) (force : Bool) :
    Nat :=
  (deletedFiles files maxBytes force).length

/-! ### Behavior learner (`modules/behavior.py`, class `BehaviorLearner`) -/

/-- One stored detection event of a pattern bucket: the `%Y-%W`
year-week key of its timestamp, its position on the time line
(seconds, for the rolling one-hour window), and the confidence. -/
structure BEvent where
  yearWeek : Nat
  time : ℚ
  confidence : ℚ
deriving DecidableEq

/-- A query timestamp, carrying exactly the attributes `check_anomaly`
reads from the `datetime`: `hour`, `minute`, `weekday()` and the
position on the time line. -/
structure BTimestamp where
  hour : Nat
  minute : Nat
  weekday : Nat
  time : ℚ
deriving DecidableEq

/-- The configuration fields of `BehaviorLearner` used by
`check_anomaly`. -/
structure BehaviorCfg where
  minSamples : Nat
  anomalyThreshold : ℚ
  timeBucketMinutes : Nat
deriving DecidableEq

/-- The pattern key `f"{day_of_week}_{hour:02d}:{minute_bucket:02d}"`,
as the injective triple (weekday, hour, minute bucket). -/
def patternKeyOf (cfg : BehaviorCfg) (ts : BTimestamp) : Nat × Nat × Nat :=
  (ts.weekday, ts.hour, ts.minute / cfg.timeBucketMinutes * cfg.timeBucketMinutes)

/-- The pattern store `self.patterns`: zone → pattern key → events. -/
def BPatterns : Type := List (String × List ((Nat × Nat × Nat) × List BEvent))

/-- One `week_counts[week_key] += 1` on the `defaultdict(int)`:
increment the week's count, creating it at 1 on first appearance. -/
def weekCountsStep (acc : List (Nat × Nat)) (e : BEvent) : List (Nat × Nat) :=
  match alookup e.yearWeek acc with
  | some c => aset e.yearWeek (c + 1) acc
  | none => acc ++ [(e.yearWeek, 1)]

/-- `week_counts`: group the bucket history by year-week and keep one
count per week (keys in first-appearance order). -/
def weekCounts (events : List BEvent) : List (Nat × Nat) :=
  events.foldl weekCountsStep []

/-- `mean_count = np.mean(counts)`. -/
def weeklyMean (events : List BEvent) : ℚ :=
  let counts := (weekCounts events).map Prod.snd
  ((counts.map fun (c : Nat) => (c : ℚ)).sum) / (counts.length : ℚ)

/-- The population variance underlying `np.std(counts)`. -/
def weeklyVar (events : List BEvent) : ℚ :=
  let counts := (weekCounts events).map Prod.snd
  ((counts.map fun (c : Nat) => ((c : ℚ) - weeklyMean events) ^ 2).sum) / (counts.length : ℚ)

/-- `recent_count`: events of the bucket strictly inside the last
rolling hour before the query timestamp. -/
def recentCount (events : List BEvent) (ts : BTimestamp) : Nat :=
  (events.filter fun e => decide (ts.time - 3600 < e.time)).length

/-- Decides `t * sqrt v < d` (for `0 < v`) inside `ℚ` by squaring:
the exact rendering of the z-score comparison
`(recent_count - mean) / std > threshold` with `std = sqrt variance`. -/
def ltMulSqrt (t d v : ℚ) : Bool :=
  if 0 ≤ t then decide (0 < d ∧ t ^ 2 * v < d ^ 2)
  else decide (0 ≤ d ∨ d ^ 2 < t ^ 2 * v)

/-- The `unusual_frequency` flag of `check_anomaly`: with more than
one week of history, `std = sqrt(variance)` guarded by `std > 0`
(equivalently `variance > 0`); with a single week `std` defaults to
`1.0`, so the z-score is just `recent_count - mean`. -/
def unusualFrequencyOf (cfg : BehaviorCfg) (events : List BEvent)
    (ts : BTimestamp) : Bool :=
  let counts := (weekCounts events).map Prod.snd
  let d : ℚ := (recentCount events ts : ℚ) - weeklyMean events
  if 1 < counts.length then
    if 0 < weeklyVar events then ltMulSqrt cfg.anomalyThreshold d (weeklyVar events)
    else false
  else
    decide (cfg.anomalyThreshold < d)

/-- The dict returned by `check_anomaly`, one constructor per return
site: the `no_data` dict, the `insufficient_samples` dict (both with
`learning: True` and no `unusual_time` key), and the full result. -/
inductive AnomalyCheck where
  | noData
  | insufficientSamples (samples required : Nat)
  | result (isAnomaly unusualTime unusualFrequency : Bool) (expected : ℚ)
      (actual : Nat)
deriving DecidableEq

/-- The `learning` key of the returned dict. -/
def AnomalyCheck.learning : AnomalyCheck → Bool
  | .result _ _ _ _ _ => false
  | _ => true

/-- The `is_anomaly` key of the returned dict. -/
def AnomalyCheck.anomalous : AnomalyCheck → Bool
  | .result a _ _ _ _ => a
  | _ => false

/-- The `unusual_time` key of the returned dict — absent (`none`) on
the two learning-path dicts. -/
def AnomalyCheck.unusualTime : AnomalyCheck → Option Bool
  | .result _ ut _ _ _ => some ut
  | _ => none

/-- `BehaviorLearner.check_anomaly(zone_name, timestamp)` (the
anomaly-log side effect appends only when `is_anomaly` and does not
affect the returned dict). -/
def checkAnomaly (cfg : BehaviorCfg) (patterns : BPatterns) (zone : String)
    (ts : BTimestamp) : AnomalyCheck :=
  match alookup zone patterns with
  | none => .noData
  | some zonePatterns =>
      let historicalData := (alookup (patternKeyOf cfg ts) zonePatterns).getD []
      if historicalData.length < cfg.minSamples then
        .insufficientSamples historicalData.length cfg.minSamples
      else
        let unusualTime := decide (weeklyMean historicalData < 1)
        let unusualFrequency := unusualFrequencyOf cfg historicalData ts
        .result (unusualTime || unusualFrequency) unusualTime unusualFrequency
          (weeklyMean historicalData) (recentCount historicalData ts)

/-- A concrete enabled zone whose polygon test is the square
`[0, 10] × [0, 10]`, used to instantiate the zone theorems. -/
def sampleZone : Zone :=
  ⟨"entry", fun p => decide (0 ≤ p.1 ∧ p.1 ≤ 10 ∧ 0 ≤ p.2 ∧ p.2 ≤ 10), true⟩

/-- A concrete disabled copy of `sampleZone`. -/
def sampleZoneOff : Zone :=
  ⟨"entry", fun p => decide (0 ≤ p.1 ∧ p.1 ≤ 10 ∧ 0 ≤ p.2 ∧ p.2 ≤ 10), false⟩

/-- The counter invariant behind C9: outside a run, either the counter
is zero or the cooldown has already fully elapsed at time `t`. -/
def filterInv (cfg : MotionFilterCfg) (s : MotionFilterState) (t : ℚ) : Prop :=
  s.motionFrameCount = 0 ∨ cfg.cooldownSeconds ≤ t - s.lastTriggerTime

/-! ## Theorems -/

/-- **C1.** For every zone name and cooldown: `trigger_alert` returns
`false` when called less than `cooldown_sec` after the zone's recorded
last successful trigger and then leaves the whole alert state (history,
active alerts, cooldown timers) unchanged; it returns `true` when the
zone has no cooldown entry (first-ever call) or when at least
`cooldown_sec` has elapsed, and in that case it appends the alert to
the history and sets the zone's cooldown timestamp to `now` (timers of
other zones unchanged, so the timer always records the last successful
trigger). -/
theorem trigger_alert_cooldown_correct (s : AlertState) (zoneName : String)
    (level : AlertLevel) (dur c now : ℚ) :
    (∀ last, alookup zoneName s.cooldownTimers = some last → now - last < c →
      triggerAlert s zoneName level dur c now = (false, s)) ∧
    (alookup zoneName s.cooldownTimers = none →
      (triggerAlert s zoneName level dur c now).1 = true) ∧
    (∀ last, alookup zoneName s.cooldownTimers = some last → c ≤ now - last →
      (triggerAlert s zoneName level dur c now).1 = true) ∧
    ((triggerAlert s zoneName level dur c now).1 = true →
      (triggerAlert s zoneName level dur c now).2.alertHistory
          = s.alertHistory ++ [⟨zoneName, level, now, dur⟩] ∧
      alookup zoneName (triggerAlert s zoneName level dur c now).2.cooldownTimers
          = some now ∧
      (∀ z', z' ≠ zoneName →
        alookup z' (triggerAlert s zoneName level dur c now).2.cooldownTimers
            = alookup z' s.cooldownTimers)) := by
  refine ⟨?_, ?_, ?_, ?_⟩
  · intro last hl hlt
    simp [triggerAlert, hl, hlt]
  · intro hl
    simp [triggerAlert, hl]
  · intro last hl hge
    simp [triggerAlert, hl, not_lt.mpr hge]
  · intro htrue
    unfold triggerAlert at htrue ⊢
    rcases hcase : alookup zoneName s.cooldownTimers with _ | last
    · simp [hcase] at htrue ⊢
      exact fun z' hz' => alookup_aset_ne zoneName z' now s.cooldownTimers hz'
    · by_cases hlt : now - last < c
      · simp [hcase, hlt] at htrue
      · simp [hcase, hlt] at htrue ⊢
        exact fun z' hz' => alookup_aset_ne zoneName z' now s.cooldownTimers hz'

/-- Witness for C1, following the spec's example scenario: zone
`"entry"` with cooldown 10; a trigger at `t = 0` succeeds, a second
call at `t = 5` is suppressed without side effects, a third at
`t = 11` succeeds again. -/
theorem trigger_alert_cooldown_correct_witness :
    (triggerAlert ⟨[], [], []⟩ "entry" .warning 2 10 0).1 = true ∧
    triggerAlert ⟨[("entry", ⟨"entry", .warning, 0, 2⟩)],
        [⟨"entry", .warning, 0, 2⟩], [("entry", 0)]⟩ "entry" .warning 2 10 5
      = (false, ⟨[("entry", ⟨"entry", .warning, 0, 2⟩)],
          [⟨"entry", .warning, 0, 2⟩], [("entry", 0)]⟩) ∧
    (triggerAlert ⟨[("entry", ⟨"entry", .warning, 0, 2⟩)],
        [⟨"entry", .warning, 0, 2⟩], [("entry", 0)]⟩ "entry" .warning 2 10 11).1 = true := by
  refine ⟨?_, ?_, ?_⟩
  · exact (trigger_alert_cooldown_correct ⟨[], [], []⟩ "entry" .warning 2 10 0).2.1 rfl
  · exact (trigger_alert_cooldown_correct _ "entry" .warning 2 10 5).1 0 rfl (by norm_num)
  · exact (trigger_alert_cooldown_correct _ "entry" .warning 2 10 11).2.2.1 0 rfl (by norm_num)

/-- **C7.** For an enabled zone, `contains_bbox` is `true` iff the bbox
center `(x + w // 2, y + h // 2)` passes the polygon test or at least
`overlap_threshold` of the four corners do; a disabled zone matches no
point and no bounding box. -/
theorem contains_bbox_characterization (z : Zone) (x y w h : Int) (thr : ℚ) :
    (z.enabled = true →
      (z.containsBbox (x, y, w, h) thr = true ↔
        (z.inPoly (x + w.fdiv 2, y + h.fdiv 2) = true ∨
          thr ≤ ((((bboxCorners x y w h).filter fun c => z.inPoly c).length : ℚ) / 4)))) ∧
    (z.enabled = false →
      (∀ p, z.containsPoint p = false) ∧
      (∀ bbox thr', z.containsBbox bbox thr' = false)) := by
  constructor
  · intro hen
    have hcp : ∀ p, z.containsPoint p = z.inPoly p := by
      intro p
      simp [Zone.containsPoint, hen]
    simp only [Zone.containsBbox, hen]
    by_cases hc : z.inPoly (x + w.fdiv 2, y + h.fdiv 2) = true
    · simp [hcp, hc]
    · have hfilter :
          ((bboxCorners x y w h).filter fun c => z.containsPoint c)
            = ((bboxCorners x y w h).filter fun c => z.inPoly c) := by
        simp [hcp]
      simp [hcp, hc, hfilter]
  · intro hen
    refine ⟨fun p => by simp [Zone.containsPoint, hen], fun bbox thr' => by
      simp [Zone.containsBbox, hen]⟩

/-- Witness for C7: on the square zone, a bbox with center inside
matches, and the disabled copy matches neither the origin nor that
bbox. -/
theorem contains_bbox_characterization_witness :
    (sampleZone.containsBbox (4, 4, 4, 4) (1/10) = true ↔
      (sampleZone.inPoly (6, 6) = true ∨
        (1/10 : ℚ) ≤ ((((bboxCorners 4 4 4 4).filter
          fun c => sampleZone.inPoly c).length : ℚ) / 4))) ∧
    sampleZoneOff.containsPoint (0, 0) = false ∧
    sampleZoneOff.containsBbox (4, 4, 4, 4) (1/10) = false := by
  refine ⟨?_, ?_, ?_⟩
  · exact (contains_bbox_characterization sampleZone 4 4 4 4 (1/10)).1 rfl
  · exact ((contains_bbox_characterization sampleZoneOff 4 4 4 4 (1/10)).2 rfl).1 (0, 0)
  · exact ((contains_bbox_characterization sampleZoneOff 4 4 4 4 (1/10)).2 rfl).2 (4, 4, 4, 4) (1/10)

/-- **C6.** `start_recording` while a session is active is an
idempotent no-op: it returns `None`, refreshes only
`last_detection_time`, and leaves the buffer and every other session
field (filename, writer contents, start time, frame count) unchanged,
for any `writerOk` outcome (no new writer is even attempted). -/
theorem start_recording_idempotent {Frame : Type} (buf : List Frame)
    (sess : Session Frame) (fname : Nat) (writerOk : Bool) (now : ℚ) :
    startRecording ⟨buf, some sess⟩ fname writerOk now
      = (none, ⟨buf, some ⟨sess.filename, sess.written, sess.startTime, now,
          sess.frameCount⟩⟩) :=
  rfl

/-- A `deque(maxlen)` append never exceeds the capacity. -/
theorem dequeAppend_length {α : Type} (cap : Nat) (buf : List α) (f : α) :
    (dequeAppend cap buf f).length = min (buf.length + 1) cap := by
  simp [dequeAppend]
  omega

/-- Folding `deque.append` over arriving frames keeps exactly the most
recent `cap` frames, in arrival order. -/
theorem foldl_dequeAppend_eq {α : Type} (cap : Nat) :
    ∀ (l buf : List α), buf.length ≤ cap →
      l.foldl (dequeAppend cap) buf = (buf ++ l).drop (buf.length + l.length - cap)
  | [], buf, h => by
      have hz : buf.length - cap = 0 := by omega
      simp [hz]
  | f :: l, buf, h => by
      rw [List.foldl_cons, foldl_dequeAppend_eq cap l (dequeAppend cap buf f)
        (by rw [dequeAppend_length]; omega)]
      have hlen : (dequeAppend cap buf f).length = min (buf.length + 1) cap :=
        dequeAppend_length cap buf f
      have hdrop : dequeAppend cap buf f ++ l
          = ((buf ++ [f]) ++ l).drop ((buf ++ [f]).length - cap) := by
        rw [dequeAppend]
        exact (List.drop_append_of_le_length (by simp)).symm
      rw [hdrop, List.drop_drop]
      have : buf ++ f :: l = (buf ++ [f]) ++ l := by simp
      rw [this]
      congr 1
      simp at hlen ⊢
      omega

/-- **C3.** The pre-event buffer never holds more than
`fps * pre_buffer_seconds` frames, eviction is oldest-first (after any
sequence of `add_frame` calls the buffer is exactly the most recent
`cap` arrivals in order), and concretely with `pre_buffer_seconds = 5`,
`fps = 10` (capacity 50), adding frames 1–60 leaves exactly frames
11–60. -/
theorem pre_buffer_bounded_fifo {Frame : Type} (cap : Nat) (l buf : List Frame)
    (h : buf.length ≤ cap) :
    (l.foldl (dequeAppend cap) buf).length ≤ cap ∧
    l.foldl (dequeAppend cap) buf = (buf ++ l).drop (buf.length + l.length - cap) ∧
    (List.range' 1 60).foldl (dequeAppend (bufferSize 10 5)) ([] : List Nat)
      = List.range' 11 50 := by
  refine ⟨?_, foldl_dequeAppend_eq cap l buf h, by decide⟩
  rw [foldl_dequeAppend_eq cap l buf h]
  simp
  omega

/-- Witness for C3 at the spec's concrete scenario: capacity
`bufferSize 10 5 = 50`, frames 1–60 starting from an empty buffer. -/
theorem pre_buffer_bounded_fifo_witness :
    ((List.range' 1 60).foldl (dequeAppend (bufferSize 10 5)) ([] : List Nat)).length
        ≤ bufferSize 10 5 ∧
    (List.range' 1 60).foldl (dequeAppend (bufferSize 10 5)) ([] : List Nat)
        = List.range' 11 50 :=
  ⟨(pre_buffer_bounded_fifo (bufferSize 10 5) (List.range' 1 60) [] (by decide)).1,
   (pre_buffer_bounded_fifo (bufferSize 10 5) (List.range' 1 60) [] (by decide)).2.2⟩

theorem stopCondAt_zero {Frame : Type} (cfg : RecorderCfg) (st ld0 : ℚ)
    (u : UpdIn Frame) (us : List (UpdIn Frame)) :
    stopCondAt cfg st ld0 (u :: us) 0
      = decide (cfg.postBufferSeconds ≤ u.now - (if u.hasDetection then u.now else ld0) ∨
          cfg.maxRecordingDuration ≤ u.now - st) := by
  simp [stopCondAt, lastDetAfter]

theorem stopCondAt_succ {Frame : Type} (cfg : RecorderCfg) (st ld0 : ℚ)
    (u : UpdIn Frame) (us : List (UpdIn Frame)) (i : Nat) :
    stopCondAt cfg st ld0 (u :: us) (i + 1)
      = stopCondAt cfg st (if u.hasDetection then u.now else ld0) us i := by
  simp [stopCondAt, lastDetAfter]

/-- While idle (`is_recording` false), `update_recording` is a no-op
returning `False`, so a whole run of calls changes nothing. -/
theorem runUpdates_idle {Frame : Type} (cfg : RecorderCfg) :
    ∀ (us : List (UpdIn Frame)) (buf : List Frame),
      runUpdates cfg ⟨buf, none⟩ us = (⟨buf, none⟩, none)
  | [], _ => rfl
  | u :: us, buf => by
      simp [runUpdates, updateRecording, runUpdates_idle cfg us buf]

/-- Soundness half of C2: if a run of `update_recording` calls closes
the session at call `i` with frame count `fc`, then the stop condition
held at call `i`, at no earlier call, `fc` counts the session's frames
at the trigger plus the `i + 1` frames written while recording, and
the recorder is back to idle with its pre-buffer intact. -/
theorem runUpdates_stop_char {Frame : Type} (cfg : RecorderCfg) :
    ∀ (us : List (UpdIn Frame)) (buf : List Frame) (sess : Session Frame) (i fc : Nat),
      (runUpdates cfg ⟨buf, some sess⟩ us).2 = some (i, fc) →
      stopCondAt cfg sess.startTime sess.lastDetectionTime us i = true ∧
      (∀ j, j < i → stopCondAt cfg sess.startTime sess.lastDetectionTime us j = false) ∧
      fc = sess.frameCount + i + 1 ∧
      (runUpdates cfg ⟨buf, some sess⟩ us).1 = ⟨buf, none⟩
  | [], buf, sess, i, fc => by
      intro h
      simp [runUpdates] at h
  | u :: rest, buf, sess, i, fc => by
      intro h
      by_cases hc : cfg.postBufferSeconds ≤
            u.now - (if u.hasDetection then u.now else sess.lastDetectionTime) ∨
          cfg.maxRecordingDuration ≤ u.now - sess.startTime
      · have hred : runUpdates cfg ⟨buf, some sess⟩ (u :: rest)
            = ((runUpdates cfg ⟨buf, none⟩ rest).1, some (0, sess.frameCount + 1)) := by
          simp [runUpdates, updateRecording, hc]
        rw [hred] at h
        simp at h
        obtain ⟨hi, hfc⟩ := h
        subst hi
        refine ⟨?_, by omega, by omega, ?_⟩
        · rw [stopCondAt_zero]
          simpa using hc
        · rw [hred]
          simp [runUpdates_idle]
      · have hred : runUpdates cfg ⟨buf, some sess⟩ (u :: rest)
            = ((runUpdates cfg ⟨buf, some (stepSession sess u.frame u.hasDetection u.now)⟩ rest).1,
               ((runUpdates cfg ⟨buf, some (stepSession sess u.frame u.hasDetection u.now)⟩
                  rest).2).map fun p => (p.1 + 1, p.2)) := by
          simp [runUpdates, updateRecording, hc, stepSession]
        rw [hred] at h
        simp only [Option.map_eq_some'] at h
        obtain ⟨p, ht, hpe⟩ := h
        rw [Prod.mk.injEq] at hpe
        obtain ⟨hi, hfc⟩ := hpe
        obtain ⟨h1, h2, h3, h4⟩ := runUpdates_stop_char cfg rest buf _ p.1 p.2 ht
        subst hi hfc
        refine ⟨?_, ?_, by simp [stepSession] at h3; omega, ?_⟩
        · rw [stopCondAt_succ]
          exact h1
        · intro j hj
          match j with
          | 0 =>
              rw [stopCondAt_zero]
              simpa using hc
          | j' + 1 =>
              rw [stopCondAt_succ]
              exact h2 j' (by omega)
        · rw [hred]
          exact h4

/-- Completeness half of C2: if the stop condition holds somewhere in
the trace, the run does close the session. -/
theorem runUpdates_stops_of_cond {Frame : Type} (cfg : RecorderCfg) :
    ∀ (us : List (UpdIn Frame)) (buf : List Frame) (sess : Session Frame),
      (∃ i, stopCondAt cfg sess.startTime sess.lastDetectionTime us i = true) →
      ((runUpdates cfg ⟨buf, some sess⟩ us).2).isSome = true
  | [], buf, sess => by
      rintro ⟨i, hi⟩
      simp [stopCondAt] at hi
  | u :: rest, buf, sess => by
      rintro ⟨i, hi⟩
      by_cases hc : cfg.postBufferSeconds ≤
            u.now - (if u.hasDetection then u.now else sess.lastDetectionTime) ∨
          cfg.maxRecordingDuration ≤ u.now - sess.startTime
      · simp [runUpdates, updateRecording, hc]
      · match i with
        | 0 =>
            rw [stopCondAt_zero] at hi
            simp at hi
            exact absurd hi hc
        | i' + 1 =>
            rw [stopCondAt_succ] at hi
            have hrec := runUpdates_stops_of_cond cfg rest buf
              (stepSession sess u.frame u.hasDetection u.now) ⟨i', hi⟩
            simp [runUpdates, updateRecording, hc, stepSession]
            simp [Option.isSome_iff_exists, stepSession] at hrec ⊢
            obtain ⟨a, b, hab⟩ := hrec
            exact ⟨a, b, hab⟩

/-- **C2.** During an active session, a run of `update_recording`
calls closes the session exactly at the first call where the stop
condition (`now - last_activity ≥ post_buffer_seconds`, evaluated on
the activity timestamp as refreshed by that same call, or
`now - start_time ≥ max_duration`) holds; the frame count at close is
the count at the trigger plus one per call made while recording
(including the closing call, whose frame is written before the check),
the recorder returns to idle with its pre-buffer intact, and
`start_recording` from idle seeds the count with the pre-buffer
length. -/
theorem update_recording_stop_spec {Frame : Type} (cfg : RecorderCfg)
    (buf : List Frame) (sess : Session Frame) (us : List (UpdIn Frame)) :
    (∀ i fc, (runUpdates cfg ⟨buf, some sess⟩ us).2 = some (i, fc) →
      stopCondAt cfg sess.startTime sess.lastDetectionTime us i = true ∧
      (∀ j, j < i → stopCondAt cfg sess.startTime sess.lastDetectionTime us j = false) ∧
      fc = sess.frameCount + i + 1 ∧
      (runUpdates cfg ⟨buf, some sess⟩ us).1 = ⟨buf, none⟩) ∧
    ((∃ i, stopCondAt cfg sess.startTime sess.lastDetectionTime us i = true) →
      ((runUpdates cfg ⟨buf, some sess⟩ us).2).isSome = true) ∧
    (∀ (s : RecorderState Frame) (fname : Nat) (now : ℚ), s.session = none →
      startRecording s fname true now
        = (some fname, ⟨s.buffer, some ⟨fname, s.buffer, now, now, s.buffer.length⟩⟩)) := by
  refine ⟨fun i fc h => runUpdates_stop_char cfg us buf sess i fc h,
    fun h => runUpdates_stops_of_cond cfg us buf sess h, ?_⟩
  rintro ⟨b, sessOpt⟩ fname now h
  simp only at h
  subst h
  rfl

/-- Witness for C2: with `post_buffer_seconds = 2`,
`max_duration = 100`, a session started with 3 pre-buffered frames and
no further detections closes at the second update call (`now = 3`,
two seconds after the last activity at 0) with frame count
`3 + 1 + 1 = 5`, and `start_recording` from idle seeds the count from
the pre-buffer. -/
theorem update_recording_stop_spec_witness :
    (stopCondAt ⟨50, 2, 100⟩ (0 : ℚ) (0 : ℚ)
        [⟨(99 : Nat), false, 1⟩, ⟨98, false, 3⟩] 1 = true ∧
      (∀ j, j < 1 → stopCondAt ⟨50, 2, 100⟩ (0 : ℚ) (0 : ℚ)
        [⟨(99 : Nat), false, 1⟩, ⟨98, false, 3⟩] j = false) ∧
      (5 : Nat) = 3 + 1 + 1 ∧
      (runUpdates ⟨50, 2, 100⟩ ⟨[1, 2, 3], some ⟨7, [1, 2, 3], 0, 0, 3⟩⟩
        [⟨(99 : Nat), false, 1⟩, ⟨98, false, 3⟩]).1 = ⟨[1, 2, 3], none⟩) ∧
    startRecording (⟨[1, 2, 3], none⟩ : RecorderState Nat) 7 true 0
      = (some 7, ⟨[1, 2, 3], some ⟨7, [1, 2, 3], 0, 0, 3⟩⟩) :=
  ⟨(update_recording_stop_spec ⟨50, 2, 100⟩ [1, 2, 3] ⟨7, [1, 2, 3], 0, 0, 3⟩
      [⟨99, false, 1⟩, ⟨98, false, 3⟩]).1 1 5
      (by norm_num [runUpdates, updateRecording, stepSession]),
   (update_recording_stop_spec ⟨50, 2, 100⟩ [1, 2, 3] ⟨7, [1, 2, 3], 0, 0, 3⟩
      [⟨99, false, 1⟩, ⟨98, false, 3⟩]).2.2 ⟨[1, 2, 3], none⟩ 7 0 rfl⟩

/-- **C10.** While the cooldown is active
(`now - last_trigger_time < cooldown_seconds`), `should_run_detection`
returns `false` and leaves the state — in particular the
consecutive-motion counter — completely untouched, whatever the motion
flag; hence a whole run of calls inside the cooldown returns all
`false` and preserves the pre-cooldown counter unchanged for the first
call after the cooldown expires. -/
theorem should_run_detection_cooldown_noop (cfg : MotionFilterCfg)
    (s : MotionFilterState) (hasMotion : Bool) (now : ℚ) (us : List MCall) :
    (now - s.lastTriggerTime < cfg.cooldownSeconds →
      shouldRunDetection cfg s hasMotion now = (false, s)) ∧
    ((∀ u ∈ us, u.now - s.lastTriggerTime < cfg.cooldownSeconds) →
      runFilter cfg s us = (s, us.map fun _ => false)) := by
  constructor
  · intro h
    simp [shouldRunDetection, h]
  · induction us with
    | nil => intro _; rfl
    | cons u rest ih =>
        intro h
        have hu : u.now - s.lastTriggerTime < cfg.cooldownSeconds :=
          h u (List.mem_cons_self u rest)
        have hrest := ih fun v hv => h v (List.mem_cons_of_mem u hv)
        simp [runFilter, shouldRunDetection, hu, hrest]

/-- Witness for C10: with cooldown 10 and a trigger recorded at time
100, a motion frame at time 105 is ignored and the counter (here 1)
survives untouched. -/
theorem should_run_detection_cooldown_noop_witness :
    shouldRunDetection ⟨10, 2⟩ ⟨1, 100⟩ true 105 = (false, ⟨1, 100⟩) ∧
    runFilter ⟨10, 2⟩ ⟨1, 100⟩ [⟨true, 105⟩, ⟨false, 106⟩] = (⟨1, 100⟩, [false, false]) :=
  ⟨(should_run_detection_cooldown_noop ⟨10, 2⟩ ⟨1, 100⟩ true 105 []).1 (by norm_num),
   (should_run_detection_cooldown_noop ⟨10, 2⟩ ⟨1, 100⟩ true 105
      [⟨true, 105⟩, ⟨false, 106⟩]).2 (by
        intro u hu
        simp only [List.mem_cons, List.not_mem_nil, or_false] at hu
        rcases hu with h | h <;> subst h <;> norm_num)⟩


/-- Helper for the counting lemma: when the head call leaves the
filter in a state whose counter is zero, the three counter properties
lift from the tail run to the whole run. -/
theorem runFilter_counter_suffix_aux (cfg : MotionFilterCfg) (u : MCall)
    (rest : List MCall) (s s1 : MotionFilterState)
    (hrun : (runFilter cfg s (u :: rest)).1 = (runFilter cfg s1 rest).1)
    (ih1 : (runFilter cfg s1 rest).1.motionFrameCount ≤ rest.length)
    (ih3 : ∀ j (hj : j < rest.length),
      rest.length - (runFilter cfg s1 rest).1.motionFrameCount ≤ j →
      (rest.get ⟨j, hj⟩).hasMotion = true) :
    ((runFilter cfg s (u :: rest)).1.motionFrameCount
        ≤ s.motionFrameCount + (u :: rest).length) ∧
    ((u :: rest).length < (runFilter cfg s (u :: rest)).1.motionFrameCount →
      (runFilter cfg s (u :: rest)).1.motionFrameCount
          = s.motionFrameCount + (u :: rest).length ∧
      ∀ j (hj : j < (u :: rest).length), ((u :: rest).get ⟨j, hj⟩).hasMotion = true) ∧
    (∀ j (hj : j < (u :: rest).length),
      (u :: rest).length - (runFilter cfg s (u :: rest)).1.motionFrameCount ≤ j →
      ((u :: rest).get ⟨j, hj⟩).hasMotion = true) := by
  rw [hrun]
  simp only [List.length_cons]
  refine ⟨by omega, fun hlt => absurd hlt (by omega), ?_⟩
  intro j hj hge
  match j, hj, hge with
  | 0, hj, hge => exact absurd hge (by omega)
  | j' + 1, hj, hge => exact ih3 j' (by omega) (by omega)

/-- Counting lemma for C9: starting from a state satisfying the
invariant at the first call time, on a time-monotone trace the final
counter is bounded by carried-in count plus trace length, a counter
exceeding the trace length means every call had motion (pure
carry-over), and the last `count` calls of the trace all had motion. -/
theorem runFilter_counter_suffix (cfg : MotionFilterCfg) :
    ∀ (us : List MCall) (s : MotionFilterState),
      us.Pairwise (fun a b => a.now ≤ b.now) →
      (∀ u, us.head? = some u → filterInv cfg s u.now) →
      ((runFilter cfg s us).1.motionFrameCount ≤ s.motionFrameCount + us.length) ∧
      (us.length < (runFilter cfg s us).1.motionFrameCount →
        (runFilter cfg s us).1.motionFrameCount = s.motionFrameCount + us.length ∧
        ∀ j (hj : j < us.length), (us.get ⟨j, hj⟩).hasMotion = true) ∧
      (∀ j (hj : j < us.length),
        us.length - (runFilter cfg s us).1.motionFrameCount ≤ j →
        (us.get ⟨j, hj⟩).hasMotion = true)
  | [], s, _, _ => by
      refine ⟨by simp [runFilter], by simp [runFilter], ?_⟩
      intro j hj
      exact absurd hj (by simp)
  | u :: rest, s, hmono, hinv => by
      rw [List.pairwise_cons] at hmono
      obtain ⟨hle, hmrest⟩ := hmono
      have hinvu : filterInv cfg s u.now := hinv u rfl
      by_cases hcool : u.now - s.lastTriggerTime < cfg.cooldownSeconds
      · -- cooldown active at the head call: the invariant forces count = 0
        have hz : s.motionFrameCount = 0 := by
          rcases hinvu with h | h
          · exact h
          · exact absurd hcool (not_lt.mpr h)
        have hstep : shouldRunDetection cfg s u.hasMotion u.now = (false, s) := by
          simp [shouldRunDetection, hcool]
        obtain ⟨ih1, -, ih3⟩ := runFilter_counter_suffix cfg rest s hmrest
          (fun v _ => Or.inl hz)
        exact runFilter_counter_suffix_aux cfg u rest s s
          (by simp [runFilter, hstep]) (by omega) ih3
      · by_cases hmot : u.hasMotion = true
        · by_cases htrig : cfg.minMotionFrames ≤ s.motionFrameCount + 1
          · -- immediate trigger: counter resets to zero
            have hstep : shouldRunDetection cfg s u.hasMotion u.now
                = (true, ⟨0, u.now⟩) := by
              simp [shouldRunDetection, hcool, hmot, htrig]
            obtain ⟨ih1, -, ih3⟩ := runFilter_counter_suffix cfg rest ⟨0, u.now⟩ hmrest
              (fun v _ => Or.inl rfl)
            exact runFilter_counter_suffix_aux cfg u rest s ⟨0, u.now⟩
              (by simp [runFilter, hstep]) (by simpa using ih1) ih3
          · -- motion without trigger: counter increments and carries over
            have hstep : shouldRunDetection cfg s u.hasMotion u.now
                = (false, ⟨s.motionFrameCount + 1, s.lastTriggerTime⟩) := by
              simp [shouldRunDetection, hcool, hmot, htrig]
            have hnext : ∀ v, rest.head? = some v →
                filterInv cfg (⟨s.motionFrameCount + 1, s.lastTriggerTime⟩ :
                  MotionFilterState) v.now := by
              intro v hv
              right
              have hvle : u.now ≤ v.now := hle v (List.mem_of_mem_head? hv)
              have hcge : cfg.cooldownSeconds ≤ u.now - s.lastTriggerTime := not_lt.mp hcool
              simp only
              linarith
            obtain ⟨ih1, ih2, ih3⟩ := runFilter_counter_suffix cfg rest
              ⟨s.motionFrameCount + 1, s.lastTriggerTime⟩ hmrest hnext
            have hrun : (runFilter cfg s (u :: rest)).1
                = (runFilter cfg (⟨s.motionFrameCount + 1, s.lastTriggerTime⟩ :
                    MotionFilterState) rest).1 := by
              simp [runFilter, hstep]
            have ih1' : (runFilter cfg (⟨s.motionFrameCount + 1, s.lastTriggerTime⟩ :
                MotionFilterState) rest).1.motionFrameCount
                  ≤ s.motionFrameCount + 1 + rest.length := by simpa using ih1
            have ih2' : rest.length < (runFilter cfg (⟨s.motionFrameCount + 1,
                s.lastTriggerTime⟩ : MotionFilterState) rest).1.motionFrameCount →
                (runFilter cfg (⟨s.motionFrameCount + 1, s.lastTriggerTime⟩ :
                  MotionFilterState) rest).1.motionFrameCount
                    = s.motionFrameCount + 1 + rest.length ∧
                ∀ j (hj : j < rest.length), (rest.get ⟨j, hj⟩).hasMotion = true := by
              intro h
              simpa using ih2 h
            refine ⟨?_, ?_, ?_⟩
            · rw [hrun]
              simp only [List.length_cons]
              omega
            · intro hlt
              rw [hrun] at hlt ⊢
              simp only [List.length_cons] at hlt ⊢
              obtain ⟨heq, hall⟩ := ih2' (by omega)
              refine ⟨by omega, ?_⟩
              intro j hj
              match j, hj with
              | 0, hj => exact hmot
              | j' + 1, hj => exact hall j' (by omega)
            · intro j hj hge
              rw [hrun] at hge
              simp only [List.length_cons] at hge hj
              match j, hj, hge with
              | 0, hj, hge => exact hmot
              | j' + 1, hj, hge =>
                  by_cases hcase : rest.length < (runFilter cfg (⟨s.motionFrameCount + 1,
                      s.lastTriggerTime⟩ : MotionFilterState) rest).1.motionFrameCount
                  · obtain ⟨-, hall⟩ := ih2' hcase
                    exact hall j' (by omega)
                  · exact ih3 j' (by omega) (by omega)
        · -- no motion outside cooldown: counter resets to zero
          have hmot' : u.hasMotion = false := by simpa using hmot
          by_cases htrig : cfg.minMotionFrames ≤ 0
          · have hstep : shouldRunDetection cfg s u.hasMotion u.now
                = (true, ⟨0, u.now⟩) := by
              simp [shouldRunDetection, hcool, hmot', htrig]
            obtain ⟨ih1, -, ih3⟩ := runFilter_counter_suffix cfg rest ⟨0, u.now⟩ hmrest
              (fun v _ => Or.inl rfl)
            exact runFilter_counter_suffix_aux cfg u rest s ⟨0, u.now⟩
              (by simp [runFilter, hstep]) (by simpa using ih1) ih3
          · have hstep : shouldRunDetection cfg s u.hasMotion u.now
                = (false, ⟨0, s.lastTriggerTime⟩) := by
              simp [shouldRunDetection, hcool, hmot', htrig]
            obtain ⟨ih1, -, ih3⟩ := runFilter_counter_suffix cfg rest
              ⟨0, s.lastTriggerTime⟩ hmrest (fun v _ => Or.inl rfl)
            exact runFilter_counter_suffix_aux cfg u rest s ⟨0, s.lastTriggerTime⟩
              (by simp [runFilter, hstep]) (by simpa using ih1) ih3

/-- Running the filter over a concatenation composes state and output. -/
theorem runFilter_append (cfg : MotionFilterCfg) (l1 l2 : List MCall) :
    ∀ s, runFilter cfg s (l1 ++ l2)
      = ((runFilter cfg (runFilter cfg s l1).1 l2).1,
         (runFilter cfg s l1).2 ++ (runFilter cfg (runFilter cfg s l1).1 l2).2) := by
  induction l1 with
  | nil => intro s; simp [runFilter]
  | cons c rest ih => intro s; simp [runFilter, ih]

theorem runFilter_output_length (cfg : MotionFilterCfg) :
    ∀ (us : List MCall) (s : MotionFilterState),
      (runFilter cfg s us).2.length = us.length
  | [], _ => rfl
  | u :: rest, s => by
      simp [runFilter, runFilter_output_length cfg rest]

/-- The `i`-th output of a run is the result of one
`should_run_detection` call on the state reached after the first `i`
calls. -/
theorem runFilter_output_at (cfg : MotionFilterCfg) (us : List MCall)
    (i : Nat) (hi : i < us.length) (s : MotionFilterState) :
    (runFilter cfg s us).2[i]?
      = some (shouldRunDetection cfg (runFilter cfg s (us.take i)).1
          us[i].hasMotion us[i].now).1 := by
  have hsplit : us = us.take i ++ us[i] :: us.drop (i + 1) := by
    conv_lhs => rw [← List.take_append_drop i us]
    congr 1
    rw [List.drop_eq_getElem_cons hi]
  have hlen : (us.take i).length = i := by
    simp [List.length_take]
    omega
  conv_lhs => rw [hsplit]
  rw [runFilter_append]
  rw [List.getElem?_append_right (by rw [runFilter_output_length]; omega)]
  rw [runFilter_output_length, hlen]
  simp [runFilter]

theorem getElem_take_eq {α : Type} (l : List α) (n j : Nat) (h1 : j < (l.take n).length)
    (h2 : j < l.length) : (l.take n).get ⟨j, h1⟩ = l[j] := by
  simp [List.get_eq_getElem, List.getElem_take]

/-- **C9.** From a zero-counter start state, on a time-monotone run of
`should_run_detection` calls, a `true` result at call `i` implies:
(a) at least `min_motion_frames` consecutive calls ending at `i` all
had motion, (b) at least `cooldown_seconds` elapsed since the
last-trigger timestamp in force before call `i`, and (c) the call
records the trigger time and resets the consecutive-motion counter to
zero. -/
theorem should_run_detection_trigger_spec (cfg : MotionFilterCfg)
    (hm : 1 ≤ cfg.minMotionFrames) (t0 : ℚ) (us : List MCall)
    (hmono : us.Pairwise fun a b => a.now ≤ b.now) (i : Nat) (hi : i < us.length)
    (htrig : (runFilter cfg ⟨0, t0⟩ us).2[i]? = some true) :
    cfg.minMotionFrames ≤ i + 1 ∧
    (∀ j (hj : j < us.length), i + 1 - cfg.minMotionFrames ≤ j → j ≤ i →
      us[j].hasMotion = true) ∧
    cfg.cooldownSeconds ≤ us[i].now
        - (runFilter cfg ⟨0, t0⟩ (us.take i)).1.lastTriggerTime ∧
    (runFilter cfg ⟨0, t0⟩ (us.take (i + 1))).1 = ⟨0, us[i].now⟩ := by
  have hout := runFilter_output_at cfg us i hi ⟨0, t0⟩
  rw [htrig] at hout
  have hr1 : (shouldRunDetection cfg (runFilter cfg (⟨0, t0⟩ : MotionFilterState)
      (us.take i)).1 us[i].hasMotion us[i].now).1 = true :=
    (Option.some.inj hout).symm
  have hcool : ¬ (us[i].now
      - (runFilter cfg (⟨0, t0⟩ : MotionFilterState) (us.take i)).1.lastTriggerTime
        < cfg.cooldownSeconds) := by
    intro hc
    rw [shouldRunDetection] at hr1
    rw [if_pos hc] at hr1
    exact Bool.false_ne_true hr1
  have hcnt0 : cfg.minMotionFrames ≤ (if us[i].hasMotion then
      (runFilter cfg (⟨0, t0⟩ : MotionFilterState) (us.take i)).1.motionFrameCount + 1
        else 0) := by
    by_contra hn
    rw [shouldRunDetection] at hr1
    rw [if_neg hcool, if_neg hn] at hr1
    exact Bool.false_ne_true hr1
  have hmotion : us[i].hasMotion = true := by
    by_contra hn
    rw [Bool.not_eq_true] at hn
    rw [hn] at hcnt0
    simp at hcnt0
    omega
  have hcnt : cfg.minMotionFrames ≤ (runFilter cfg (⟨0, t0⟩ : MotionFilterState)
      (us.take i)).1.motionFrameCount + 1 := by
    rw [hmotion] at hcnt0
    simpa using hcnt0
  have hstate : (shouldRunDetection cfg (runFilter cfg (⟨0, t0⟩ : MotionFilterState)
      (us.take i)).1 us[i].hasMotion us[i].now).2
        = ⟨0, us[i].now⟩ := by
    rw [shouldRunDetection]
    rw [if_neg hcool]
    simp only [hmotion, if_true]
    rw [if_pos hcnt]
  have htakeMono : (us.take i).Pairwise (fun a b => a.now ≤ b.now) :=
    hmono.sublist (List.take_sublist i us)
  obtain ⟨hb1, -, hb3⟩ := runFilter_counter_suffix cfg (us.take i) ⟨0, t0⟩ htakeMono
    (fun v _ => Or.inl rfl)
  have hlen : (us.take i).length = i := by
    simp [List.length_take]
    omega
  have hb1' : (runFilter cfg (⟨0, t0⟩ : MotionFilterState)
      (us.take i)).1.motionFrameCount ≤ i := by
    rw [hlen] at hb1
    simpa using hb1
  refine ⟨by omega, ?_, not_lt.mp hcool, ?_⟩
  · intro j hj hlow hhigh
    by_cases hji : j = i
    · subst hji
      exact hmotion
    · have hjlt : j < i := lt_of_le_of_ne hhigh hji
      have hj' : j < (us.take i).length := by omega
      have hres := hb3 j hj' (by omega)
      rwa [getElem_take_eq us i j hj' hj] at hres
  · have htake1 : us.take (i + 1) = us.take i ++ [us[i]] := by
      rw [List.take_succ]
      congr
      rw [List.getElem?_eq_getElem hi]
      rfl
    rw [htake1, runFilter_append]
    simp [runFilter, hstate]

/-- Witness for C9: cooldown 2, `min_motion_frames` 2, initial state
`⟨0, 0⟩`, two motion frames at times 100 and 101; the second call
triggers, both calls had motion, the cooldown gap holds, and the state
after the trigger is `⟨0, 101⟩`. -/
theorem should_run_detection_trigger_spec_witness :
    (2 : Nat) ≤ 1 + 1 ∧
    (([⟨true, 100⟩, ⟨true, 101⟩] : List MCall)[0]).hasMotion = true ∧
    (([⟨true, 100⟩, ⟨true, 101⟩] : List MCall)[1]).hasMotion = true ∧
    (2 : ℚ) ≤ (([⟨true, 100⟩, ⟨true, 101⟩] : List MCall)[1]).now
      - (runFilter ⟨2, 2⟩ ⟨0, 0⟩ (([⟨true, 100⟩, ⟨true, 101⟩] : List MCall).take 1)).1.lastTriggerTime ∧
    (runFilter ⟨2, 2⟩ ⟨0, 0⟩ (([⟨true, 100⟩, ⟨true, 101⟩] : List MCall).take 2)).1
      = ⟨0, (([⟨true, 100⟩, ⟨true, 101⟩] : List MCall)[1]).now⟩ := by
  obtain ⟨h1, h2, h3, h4⟩ := should_run_detection_trigger_spec ⟨2, 2⟩ (by norm_num) 0
    [⟨true, 100⟩, ⟨true, 101⟩]
    (by
      refine List.Pairwise.cons ?_ ?_
      · intro b hb
        simp only [List.mem_cons, List.not_mem_nil, or_false] at hb
        subst hb
        norm_num
      · refine List.Pairwise.cons ?_ List.Pairwise.nil
        intro b hb
        exact absurd hb (List.not_mem_nil b))
    1 (by norm_num)
    (by norm_num [runFilter, shouldRunDetection])
  exact ⟨h1, h2 0 (by norm_num) (by norm_num) (by norm_num),
    h2 1 (by norm_num) (by norm_num) (by norm_num), h3, h4⟩

/-- **C5, counterexample.** The claim that the consecutive-failure
counter "is reset to zero only when the post-reconnect test read
succeeds" is false: `_reconnect` zeroes the counter unconditionally at
its start.  Concretely, a 5th consecutive failed read triggers a
reconnect whose reopen fails (no test read at all) — yet the counter
ends at 0 (and `is_open` is false). -/
theorem read_frame_reset_counterexample :
    (readFrame 5 (⟨true, true, none, false, 4⟩ : CamState Nat) .fail
        ⟨false, false, false⟩).2.consecutiveFailures = 0 ∧
    (⟨false, false, false⟩ : ReconnectEnv).testReadOk = false ∧
    (readFrame 5 (⟨true, true, none, false, 4⟩ : CamState Nat) .fail
        ⟨false, false, false⟩).2.isOpen = false ∧
    (readFrame 5 (⟨true, true, none, false, 4⟩ : CamState Nat) .fail
        ⟨false, false, false⟩).1 = (false, none) := by
  refine ⟨rfl, rfl, rfl, rfl⟩

/-- **C5, amended.** Once the incremented consecutive-failure counter
reaches `max_failures`, a failed read triggers the internal reconnect;
every reconnect attempt resets the counter to zero unconditionally
(before reopening, regardless of the test read); a reconnect whose
reopen fails or raises leaves `is_open` false, after which every
`read_frame` returns `(false, None)` without state change until a
successful `start()`; a reconnect whose reopen succeeds sets `is_open`
true on a successful test read and otherwise leaves it unchanged. -/
theorem read_frame_reconnect_spec {Frame : Type} (maxFailures : Nat)
    (s : CamState Frame) (outcome : ReadOutcome Frame) (e : ReconnectEnv) :
    (s.isOpen = true → s.capSome = true → (outcome = .fail ∨ outcome = .exn) →
      maxFailures ≤ s.consecutiveFailures + 1 →
      (readFrame maxFailures s outcome e).2
        = camReconnect { s with consecutiveFailures := s.consecutiveFailures + 1 } e) ∧
    ((camReconnect s e).consecutiveFailures = 0) ∧
    ((e.raises = true ∨ e.openOk = false) → (camReconnect s e).isOpen = false) ∧
    (e.raises = false → e.openOk = true → e.testReadOk = false →
      (camReconnect s e).isOpen = s.isOpen) ∧
    (e.raises = false → e.openOk = true → e.testReadOk = true →
      (camReconnect s e).isOpen = true) ∧
    (s.isOpen = false → readFrame maxFailures s outcome e = ((false, none), s)) ∧
    ((camStart s true true).1 = true ∧ (camStart s true true).2.isOpen = true) := by
  refine ⟨?_, ?_, ?_, ?_, ?_, ?_, ?_, ?_⟩
  · intro hopen hcap houtcome hmax
    have hread : readFrame maxFailures s outcome e
        = (match (camReconnect { s with consecutiveFailures :=
            s.consecutiveFailures + 1 } e).lastFrame with
          | some lf => ((true, some lf),
              camReconnect { s with consecutiveFailures :=
                s.consecutiveFailures + 1 } e)
          | none => ((false, none),
              camReconnect { s with consecutiveFailures :=
                s.consecutiveFailures + 1 } e)) := by
      rcases houtcome with h | h <;> subst h <;>
        simp [readFrame, hopen, hcap, hmax]
    rw [hread]
    cases (camReconnect { s with consecutiveFailures :=
        s.consecutiveFailures + 1 } e).lastFrame <;> rfl
  · unfold camReconnect
    rcases e with ⟨r, o, t⟩
    cases r <;> cases o <;> cases t <;> rfl
  · intro h
    unfold camReconnect
    rcases e with ⟨r, o, t⟩
    rcases h with h | h <;> subst h
    · rfl
    · cases r <;> cases t <;> rfl
  · intro hr ho ht
    simp [camReconnect, hr, ho, ht]
  · intro hr ho ht
    simp [camReconnect, hr, ho, ht]
  · intro h
    simp [readFrame, h]
  · rfl
  · rfl

/-- Witness for the amended C5 at `max_failures = 5`: a 5th failure
routes through the reconnect, the counter is zeroed, a failed reopen
closes the camera, a read while closed is a no-op returning
`(false, None)`, and a successful `start()` reopens. -/
theorem read_frame_reconnect_spec_witness :
    (readFrame 5 (⟨true, true, none, false, 4⟩ : CamState Nat) .fail
        ⟨false, false, false⟩).2
      = camReconnect (⟨true, true, none, false, 5⟩ : CamState Nat)
          ⟨false, false, false⟩ ∧
    (camReconnect (⟨true, true, none, false, 5⟩ : CamState Nat)
        ⟨false, false, false⟩).consecutiveFailures = 0 ∧
    (camReconnect (⟨true, true, none, false, 5⟩ : CamState Nat)
        ⟨false, false, false⟩).isOpen = false ∧
    readFrame 5 (⟨false, true, none, false, 0⟩ : CamState Nat) .fail
        ⟨false, false, false⟩
      = ((false, none), ⟨false, true, none, false, 0⟩) ∧
    (camStart (⟨false, true, none, false, 0⟩ : CamState Nat) true true).2.isOpen
      = true :=
  ⟨(read_frame_reconnect_spec 5 (⟨true, true, none, false, 4⟩ : CamState Nat)
      .fail ⟨false, false, false⟩).1 rfl rfl (Or.inl rfl) (by norm_num),
   (read_frame_reconnect_spec 5 (⟨true, true, none, false, 5⟩ : CamState Nat)
      .fail ⟨false, false, false⟩).2.1,
   (read_frame_reconnect_spec 5 (⟨true, true, none, false, 5⟩ : CamState Nat)
      .fail ⟨false, false, false⟩).2.2.1 (Or.inr rfl),
   (read_frame_reconnect_spec 5 (⟨false, true, none, false, 0⟩ : CamState Nat)
      .fail ⟨false, false, false⟩).2.2.2.2.2.1 rfl,
   (read_frame_reconnect_spec 5 (⟨false, true, none, false, 0⟩ : CamState Nat)
      .fail ⟨false, false, false⟩).2.2.2.2.2.2.2⟩

@[simp] theorem sizeSum_nil : sizeSum [] = 0 := rfl

@[simp] theorem sizeSum_cons (f : RecFile) (l : List RecFile) :
    sizeSum (f :: l) = (f.size : ℤ) + sizeSum l := by
  simp [sizeSum]

/-- The deletion loop deletes exactly the deletable files of some
prefix of its input, and it stops either by exhausting the input or
because the remaining usage fell strictly below the 80% mark. -/
theorem deleteLoop_shape (usage maxBytes : Nat) :
    ∀ (l : List RecFile) (freed : Nat),
      ∃ k, k ≤ l.length ∧
        deleteLoop usage maxBytes l freed
          = (l.take k).filter (fun f => f.deletable) ∧
        (k = l.length ∨
          5 * ((usage : ℤ) - ((freed : ℤ)
              + sizeSum ((l.take k).filter fun f => f.deletable)))
            < 4 * (maxBytes : ℤ))
  | [], freed => ⟨0, by simp, by simp [deleteLoop], Or.inl rfl⟩
  | f :: rest, freed => by
      by_cases hbrk : 5 * ((usage : ℤ) - freed) < 4 * (maxBytes : ℤ)
      · refine ⟨0, by simp, by simp [deleteLoop, hbrk], Or.inr ?_⟩
        simpa using hbrk
      · by_cases hdel : f.deletable = true
        · obtain ⟨k', hk'le, hk'eq, hk'stop⟩ :=
            deleteLoop_shape usage maxBytes rest (freed + f.size)
          refine ⟨k' + 1, by simpa using hk'le, ?_, ?_⟩
          · simp [deleteLoop, hbrk, hdel, hk'eq]
          · rcases hk'stop with h | h
            · exact Or.inl (by simp [h])
            · right
              simp only [List.take_succ_cons, List.filter_cons_of_pos hdel,
                sizeSum_cons]
              push_cast at h ⊢
              linarith
        · obtain ⟨k', hk'le, hk'eq, hk'stop⟩ :=
            deleteLoop_shape usage maxBytes rest freed
          refine ⟨k' + 1, by simpa using hk'le, ?_, ?_⟩
          · simp [deleteLoop, hbrk, hdel, hk'eq]
          · rcases hk'stop with h | h
            · exact Or.inl (by simp [h])
            · right
              simpa [List.take_succ_cons,
                List.filter_cons_of_neg (by simpa using hdel)] using h

/-- Every deletion of the loop happens while the remaining usage is
still at or above the 80% mark: before deleting the `i`-th file the
bytes freed so far have not brought usage strictly below it. -/
theorem deleteLoop_guard (usage maxBytes : Nat) :
    ∀ (l : List RecFile) (freed : Nat) (i : Nat),
      i < (deleteLoop usage maxBytes l freed).length →
      4 * (maxBytes : ℤ) ≤ 5 * ((usage : ℤ) - ((freed : ℤ)
        + sizeSum ((deleteLoop usage maxBytes l freed).take i)))
  | [], freed, i => by
      intro hi
      simp [deleteLoop] at hi
  | f :: rest, freed, i => by
      intro hi
      by_cases hbrk : 5 * ((usage : ℤ) - freed) < 4 * (maxBytes : ℤ)
      · simp [deleteLoop, hbrk] at hi
      · by_cases hdel : f.deletable = true
        · have hdl : deleteLoop usage maxBytes (f :: rest) freed
              = f :: deleteLoop usage maxBytes rest (freed + f.size) := by
            simp [deleteLoop, hbrk, hdel]
          rw [hdl] at hi ⊢
          match i, hi with
          | 0, hi =>
              simp only [List.take_zero, sizeSum_nil, add_zero]
              omega
          | i' + 1, hi =>
              have := deleteLoop_guard usage maxBytes rest (freed + f.size) i'
                (by simpa using hi)
              simp only [List.take_succ_cons, sizeSum_cons]
              push_cast at this ⊢
              linarith
        · have hdl : deleteLoop usage maxBytes (f :: rest) freed
              = deleteLoop usage maxBytes rest freed := by
            simp [deleteLoop, hbrk, hdel]
          rw [hdl] at hi ⊢
          exact deleteLoop_guard usage maxBytes rest freed i hi

/-- If the deletable bytes of the remaining files suffice to reach the
80% mark, the loop does reach it. -/
theorem deleteLoop_sufficient (usage maxBytes : Nat) :
    ∀ (l : List RecFile) (freed : Nat),
      5 * ((usage : ℤ) - ((freed : ℤ) + sizeSum (l.filter fun f => f.deletable)))
          ≤ 4 * (maxBytes : ℤ) →
      5 * ((usage : ℤ) - ((freed : ℤ)
          + sizeSum (deleteLoop usage maxBytes l freed)))
          ≤ 4 * (maxBytes : ℤ)
  | [], freed => by
      intro h
      simpa [deleteLoop] using h
  | f :: rest, freed => by
      intro h
      by_cases hbrk : 5 * ((usage : ℤ) - freed) < 4 * (maxBytes : ℤ)
      · simp only [deleteLoop, if_pos hbrk, sizeSum_nil, add_zero]
        linarith
      · by_cases hdel : f.deletable = true
        · have hdl : deleteLoop usage maxBytes (f :: rest) freed
              = f :: deleteLoop usage maxBytes rest (freed + f.size) := by
            simp [deleteLoop, hbrk, hdel]
          rw [hdl]
          rw [List.filter_cons_of_pos hdel] at h
          simp only [sizeSum_cons] at h
          have := deleteLoop_sufficient usage maxBytes rest (freed + f.size)
            (by push_cast at h ⊢; linarith)
          simp only [sizeSum_cons]
          push_cast at this ⊢
          linarith
        · have hdl : deleteLoop usage maxBytes (f :: rest) freed
              = deleteLoop usage maxBytes rest freed := by
            simp [deleteLoop, hbrk, hdel]
          rw [hdl]
          rw [List.filter_cons_of_neg (by simpa using hdel)] at h
          exact deleteLoop_sufficient usage maxBytes rest freed h

/-- **C8, counterexample.** The claim that cleanup "stops deleting
once usage has dropped to 80% of max_storage_bytes and never deletes
past that point" is false at the boundary: with files of sizes 2 and 8
bytes and a 10-byte limit (usage 100%), deleting the oldest file drops
usage to exactly 80% (8 bytes = 4/5 · 10), yet the loop — whose break
condition is strict (`< max * 0.8`, and `10 * 0.8 == 8.0` exactly in
the source's floats) — deletes the second file too, returning 2 and
leaving usage 0. -/
theorem cleanup_80_percent_counterexample :
    cleanupOldRecordings [⟨0, 2, true⟩, ⟨1, 8, true⟩] 10 false = 2 ∧
    5 * ((totalUsage [⟨0, 2, true⟩, ⟨1, 8, true⟩] : ℤ)
        - sizeSum ((deletedFiles [⟨0, 2, true⟩, ⟨1, 8, true⟩] 10 false).take 1))
      = 4 * 10 ∧
    deletedFiles [⟨0, 2, true⟩, ⟨1, 8, true⟩] 10 false
      = [⟨0, 2, true⟩, ⟨1, 8, true⟩] := by
  refine ⟨?_, ?_, ?_⟩ <;> decide

/-- **C8, amended.** `cleanup_old_recordings` deletes nothing when
under the limit and not forced; otherwise it walks the files
oldest-first (deleted files are an mtime-sorted subsequence of the
sorted listing), deletes only while remaining usage is still at or
above 80% of `max_storage_bytes` — stopping at the first file where
usage has dropped strictly below that mark — returns the number of
files actually deleted, skips failed deletions and continues, and
whenever the deletable bytes suffice it ends with usage at most 80%
of the limit. -/
theorem cleanup_old_recordings_spec (files : List RecFile) (maxBytes : Nat)
    (force : Bool) :
    (force = false → totalUsage files < maxBytes →
      deletedFiles files maxBytes force = [] ∧
      cleanupOldRecordings files maxBytes force = 0) ∧
    cleanupOldRecordings files maxBytes force
      = (deletedFiles files maxBytes force).length ∧
    (deletedFiles files maxBytes force).Sublist (sortByMtime files) ∧
    (sortByMtime files).Sorted (fun a b => a.mtime ≤ b.mtime) ∧
    (deletedFiles files maxBytes force).Sorted (fun a b => a.mtime ≤ b.mtime) ∧
    (∀ i, i < (deletedFiles files maxBytes force).length →
      4 * (maxBytes : ℤ) ≤ 5 * ((totalUsage files : ℤ)
        - sizeSum ((deletedFiles files maxBytes force).take i))) ∧
    ((force = true ∨ maxBytes ≤ totalUsage files) →
      5 * ((totalUsage files : ℤ)
          - sizeSum ((sortByMtime files).filter fun f => f.deletable))
        ≤ 4 * (maxBytes : ℤ) →
      5 * ((totalUsage files : ℤ) - sizeSum (deletedFiles files maxBytes force))
        ≤ 4 * (maxBytes : ℤ)) := by
  have hsorted : (sortByMtime files).Sorted (fun a b => a.mtime ≤ b.mtime) := by
    haveI : IsTotal RecFile (fun a b => a.mtime ≤ b.mtime) :=
      ⟨fun a b => le_total a.mtime b.mtime⟩
    haveI : IsTrans RecFile (fun a b => a.mtime ≤ b.mtime) :=
      ⟨fun _ _ _ hab hbc => le_trans hab hbc⟩
    exact List.sorted_insertionSort _ _
  have hsub : (deletedFiles files maxBytes force).Sublist (sortByMtime files) := by
    rw [deletedFiles]
    by_cases hc : force = false ∧ totalUsage files < maxBytes
    · simp [hc]
    · rw [if_neg hc]
      obtain ⟨k, -, hkeq, -⟩ :=
        deleteLoop_shape (totalUsage files) maxBytes (sortByMtime files) 0
      rw [hkeq]
      exact (List.filter_sublist _).trans (List.take_sublist _ _)
  refine ⟨?_, rfl, hsub, hsorted, List.Pairwise.sublist hsub hsorted, ?_, ?_⟩
  · intro hf hlt
    constructor
    · simp [deletedFiles, hf, hlt]
    · simp [cleanupOldRecordings, deletedFiles, hf, hlt]
  · intro i hi
    rw [deletedFiles] at hi ⊢
    by_cases hc : force = false ∧ totalUsage files < maxBytes
    · rw [if_pos hc] at hi
      simp at hi
    · rw [if_neg hc] at hi ⊢
      have := deleteLoop_guard (totalUsage files) maxBytes (sortByMtime files) 0 i hi
      simpa using this
  · intro hover hsuff
    have hc : ¬ (force = false ∧ totalUsage files < maxBytes) := by
      rcases hover with h | h
      · intro hand
        rw [hand.1] at h
        exact Bool.false_ne_true h
      · intro hand
        exact absurd hand.2 (not_lt.mpr h)
    rw [deletedFiles, if_neg hc]
    have := deleteLoop_sufficient (totalUsage files) maxBytes (sortByMtime files) 0
      (by simpa using hsuff)
    simpa using this

/-- Witness for the amended C8 at the boundary scenario of the
counterexample: both files are deleted oldest-first, the pre-deletion
guard holds for each, the returned count matches, and final usage
(0 bytes) is at most 80% of the 10-byte limit. -/
theorem cleanup_old_recordings_spec_witness :
    cleanupOldRecordings [⟨0, 2, true⟩, ⟨1, 8, true⟩] 10 false
      = (deletedFiles [⟨0, 2, true⟩, ⟨1, 8, true⟩] 10 false).length ∧
    4 * (10 : ℤ) ≤ 5 * ((totalUsage [⟨0, 2, true⟩, ⟨1, 8, true⟩] : ℤ)
      - sizeSum ((deletedFiles [⟨0, 2, true⟩, ⟨1, 8, true⟩] 10 false).take 1)) ∧
    5 * ((totalUsage [⟨0, 2, true⟩, ⟨1, 8, true⟩] : ℤ)
      - sizeSum (deletedFiles [⟨0, 2, true⟩, ⟨1, 8, true⟩] 10 false))
        ≤ 4 * (10 : ℤ) :=
  ⟨(cleanup_old_recordings_spec [⟨0, 2, true⟩, ⟨1, 8, true⟩] 10 false).2.1,
   (cleanup_old_recordings_spec [⟨0, 2, true⟩, ⟨1, 8, true⟩] 10 false).2.2.2.2.2.1
      1 (by decide),
   (cleanup_old_recordings_spec [⟨0, 2, true⟩, ⟨1, 8, true⟩] 10 false).2.2.2.2.2.2
      (Or.inr (by decide)) (by decide)⟩

theorem mem_aset {κ β : Type} [DecidableEq κ] (k : κ) (v : β) :
    ∀ (l : List (κ × β)) (p : κ × β), p ∈ aset k v l → p = (k, v) ∨ p ∈ l
  | [], p => by
      intro h
      simp [aset] at h
      exact Or.inl h
  | (k', v') :: rest, p => by
      intro h
      by_cases hk : k = k'
      · rw [aset, if_pos hk] at h
        rcases List.mem_cons.mp h with h | h
        · exact Or.inl h
        · exact Or.inr (List.mem_cons_of_mem _ h)
      · rw [aset, if_neg hk] at h
        rcases List.mem_cons.mp h with h | h
        · exact Or.inr (h ▸ List.mem_cons_self _ _)
        · rcases mem_aset k v rest p h with h | h
          · exact Or.inl h
          · exact Or.inr (List.mem_cons_of_mem _ h)

theorem aset_ne_nil {κ β : Type} [DecidableEq κ] (k : κ) (v : β) :
    ∀ (l : List (κ × β)), aset k v l ≠ []
  | [] => by simp [aset]
  | (k', v') :: rest => by
      by_cases hk : k = k'
      · simp [aset, hk]
      · simp [aset, hk]

/-- Every grouped weekly count is at least one: only weeks that
actually contain events appear in `week_counts`. -/
theorem weekCounts_counts_pos (events : List BEvent) :
    ∀ p ∈ weekCounts events, 1 ≤ p.2 := by
  suffices h : ∀ (es : List BEvent) (acc : List (Nat × Nat)),
      (∀ p ∈ acc, 1 ≤ p.2) → ∀ p ∈ es.foldl weekCountsStep acc, 1 ≤ p.2 by
    exact h events [] (by simp)
  intro es
  induction es with
  | nil => intro acc hacc; simpa using hacc
  | cons e rest ih =>
      intro acc hacc
      rw [List.foldl_cons]
      apply ih
      intro p hp
      rw [weekCountsStep] at hp
      rcases hl : alookup e.yearWeek acc with _ | c
      · rw [hl] at hp
        rcases List.mem_append.mp hp with h | h
        · exact hacc p h
        · simp at h
          subst h
          exact le_refl 1
      · rw [hl] at hp
        rcases mem_aset _ _ _ _ hp with h | h
        · subst h
          omega
        · exact hacc p h

theorem weekCounts_ne_nil (events : List BEvent) (h : events ≠ []) :
    weekCounts events ≠ [] := by
  suffices haux : ∀ (es : List BEvent) (acc : List (Nat × Nat)),
      acc ≠ [] → es.foldl weekCountsStep acc ≠ [] by
    match events, h with
    | e :: rest, _ =>
        rw [weekCounts, List.foldl_cons]
        apply haux
        rw [weekCountsStep]
        rcases hl : alookup e.yearWeek [] with _ | c
        · simp
        · simp [alookup] at hl
  intro es
  induction es with
  | nil => intro acc hacc; simpa using hacc
  | cons e rest ih =>
      intro acc hacc
      rw [List.foldl_cons]
      apply ih
      rw [weekCountsStep]
      rcases alookup e.yearWeek acc with _ | c
      · simp
      · exact aset_ne_nil _ _ acc

theorem sum_cast_ge_length :
    ∀ (l : List Nat), (∀ c ∈ l, 1 ≤ c) →
      (l.length : ℚ) ≤ (l.map fun (c : Nat) => (c : ℚ)).sum
  | [], _ => by simp
  | c :: rest, h => by
      have hc : (1 : ℚ) ≤ (c : ℚ) := by
        have := h c (List.mem_cons_self c rest)
        exact_mod_cast this
      have hrest := sum_cast_ge_length rest fun x hx => h x (List.mem_cons_of_mem c hx)
      simp only [List.map_cons, List.sum_cons, List.length_cons, Nat.cast_add,
        Nat.cast_one]
      linarith

/-- The weekly mean of a nonempty bucket is always at least 1:
`week_counts` only contains weeks with at least one event, so
`np.mean(counts) < 1.0` — the `unusual_time` trigger — never fires on
a bucket that reached the statistics path. -/
theorem weeklyMean_ge_one (events : List BEvent) (h : events ≠ []) :
    1 ≤ weeklyMean events := by
  rw [weeklyMean]
  have hne : weekCounts events ≠ [] := weekCounts_ne_nil events h
  have hlen : 0 < ((weekCounts events).map Prod.snd).length := by
    simp only [List.length_map]
    exact List.length_pos.mpr hne
  have hsum : (((weekCounts events).map Prod.snd).length : ℚ)
      ≤ (((weekCounts events).map Prod.snd).map fun (c : Nat) => (c : ℚ)).sum := by
    apply sum_cast_ge_length
    intro c hcmem
    rw [List.mem_map] at hcmem
    obtain ⟨p, hmem, rfl⟩ := hcmem
    exact weekCounts_counts_pos events p hmem
  rw [le_div_iff₀ (by exact_mod_cast hlen)]
  simpa using hsum

/-- **C4, counterexample.** The claim that a query timestamp outside
all historical buckets (for a zone with `min_samples` worth of data in
another bucket) yields `unusual_time = true` is false: the empty
queried bucket has fewer than `min_samples` events, so `check_anomaly`
takes the insufficient-samples path, returning `learning = true`,
`is_anomaly = false` and a dict with no `unusual_time` key at all.
Here the zone holds 10 events (= `min_samples`, the default) in bucket
(Mon, 08:00), and the query at (Mon, 03:00) hits an empty bucket. -/
theorem check_anomaly_unusual_time_counterexample :
    ((alookup ((0 : Nat), (8 : Nat), (0 : Nat))
        [(((0 : Nat), (8 : Nat), (0 : Nat)),
          List.replicate 10 (⟨1, 0, 1⟩ : BEvent))]).getD []).length = 10 ∧
    checkAnomaly ⟨10, 5/2, 30⟩
        [("entry", [(((0 : Nat), (8 : Nat), (0 : Nat)),
          List.replicate 10 (⟨1, 0, 1⟩ : BEvent))])] "entry" ⟨3, 0, 0, 0⟩
      = .insufficientSamples 0 10 ∧
    (checkAnomaly ⟨10, 5/2, 30⟩
        [("entry", [(((0 : Nat), (8 : Nat), (0 : Nat)),
          List.replicate 10 (⟨1, 0, 1⟩ : BEvent))])] "entry" ⟨3, 0, 0, 0⟩).unusualTime
      ≠ some true ∧
    (checkAnomaly ⟨10, 5/2, 30⟩
        [("entry", [(((0 : Nat), (8 : Nat), (0 : Nat)),
          List.replicate 10 (⟨1, 0, 1⟩ : BEvent))])] "entry" ⟨3, 0, 0, 0⟩).learning
      = true := by
  refine ⟨by decide, by decide, by decide, by decide⟩

/-- **C4, amended.** `check_anomaly` returns `learning = true,
is_anomaly = false` (and no `unusual_time` flag) whenever the zone is
unknown or the queried bucket holds fewer than `min_samples` events —
in particular for any timestamp outside all historical buckets; with
at least `min_samples` events in the queried bucket it leaves the
learning state and sets `unusual_time` exactly to
`weekly mean of the bucket < 1.0`, which is in fact always `false`
(for `min_samples ≥ 1`) since only weeks containing events are
averaged. -/
theorem check_anomaly_learning_spec (cfg : BehaviorCfg) (patterns : BPatterns)
    (zone : String) (ts : BTimestamp) :
    (alookup zone patterns = none →
      checkAnomaly cfg patterns zone ts = .noData) ∧
    (∀ zp, alookup zone patterns = some zp →
      ((alookup (patternKeyOf cfg ts) zp).getD []).length < cfg.minSamples →
      checkAnomaly cfg patterns zone ts
        = .insufficientSamples
            ((alookup (patternKeyOf cfg ts) zp).getD []).length cfg.minSamples) ∧
    ((checkAnomaly cfg patterns zone ts).learning = true →
      (checkAnomaly cfg patterns zone ts).anomalous = false ∧
      (checkAnomaly cfg patterns zone ts).unusualTime = none) ∧
    (∀ zp, alookup zone patterns = some zp →
      cfg.minSamples ≤ ((alookup (patternKeyOf cfg ts) zp).getD []).length →
      (checkAnomaly cfg patterns zone ts).learning = false ∧
      (checkAnomaly cfg patterns zone ts).unusualTime
        = some (decide (weeklyMean ((alookup (patternKeyOf cfg ts) zp).getD []) < 1))) ∧
    (∀ zp, alookup zone patterns = some zp →
      cfg.minSamples ≤ ((alookup (patternKeyOf cfg ts) zp).getD []).length →
      1 ≤ cfg.minSamples →
      (checkAnomaly cfg patterns zone ts).unusualTime = some false) := by
  refine ⟨?_, ?_, ?_, ?_, ?_⟩
  · intro h
    simp [checkAnomaly, h]
  · intro zp hzp hlt
    simp [checkAnomaly, hzp, hlt]
  · intro hlearn
    rcases hres : checkAnomaly cfg patterns zone ts with _ | ⟨a, b⟩ | ⟨a, b, c, d, e⟩
    · simp [AnomalyCheck.anomalous, AnomalyCheck.unusualTime]
    · simp [AnomalyCheck.anomalous, AnomalyCheck.unusualTime]
    · rw [hres] at hlearn
      simp [AnomalyCheck.learning] at hlearn
  · intro zp hzp hge
    rw [checkAnomaly, hzp]
    simp only [not_lt.mpr hge, if_neg (not_lt.mpr hge)]
    exact ⟨rfl, rfl⟩
  · intro zp hzp hge hmin
    have hne : (alookup (patternKeyOf cfg ts) zp).getD [] ≠ [] := by
      intro hnil
      rw [hnil] at hge
      simp at hge
      omega
    have hmean := weeklyMean_ge_one _ hne
    rw [checkAnomaly, hzp]
    simp only [if_neg (not_lt.mpr hge)]
    simp [AnomalyCheck.unusualTime, not_lt.mpr hmean]

/-- Witness for the amended C4: with `min_samples = 2` and a bucket
(Tue, 08:00) holding events in weeks 1 and 2 (weekly mean 1), a query
hitting an empty bucket returns the insufficient-samples dict, a query
hitting the full bucket leaves learning with `unusual_time = false`,
and an unknown zone returns the no-data dict. -/
theorem check_anomaly_learning_spec_witness :
    checkAnomaly ⟨2, 5/2, 30⟩
        [("entry", [(((1 : Nat), (8 : Nat), (0 : Nat)),
          [(⟨1, 0, 1⟩ : BEvent), ⟨2, 100, 1⟩])])] "entry" ⟨9, 0, 1, 200⟩
      = .insufficientSamples 0 2 ∧
    (checkAnomaly ⟨2, 5/2, 30⟩
        [("entry", [(((1 : Nat), (8 : Nat), (0 : Nat)),
          [(⟨1, 0, 1⟩ : BEvent), ⟨2, 100, 1⟩])])] "entry" ⟨8, 0, 1, 200⟩).learning
      = false ∧
    (checkAnomaly ⟨2, 5/2, 30⟩
        [("entry", [(((1 : Nat), (8 : Nat), (0 : Nat)),
          [(⟨1, 0, 1⟩ : BEvent), ⟨2, 100, 1⟩])])] "entry" ⟨8, 0, 1, 200⟩).unusualTime
      = some false ∧
    checkAnomaly ⟨2, 5/2, 30⟩ ([] : BPatterns) "entry" ⟨8, 0, 1, 200⟩ = .noData :=
  ⟨(check_anomaly_learning_spec ⟨2, 5/2, 30⟩
      [("entry", [(((1 : Nat), (8 : Nat), (0 : Nat)),
        [(⟨1, 0, 1⟩ : BEvent), ⟨2, 100, 1⟩])])] "entry" ⟨9, 0, 1, 200⟩).2.1
      [(((1 : Nat), (8 : Nat), (0 : Nat)), [(⟨1, 0, 1⟩ : BEvent), ⟨2, 100, 1⟩])]
      rfl (by decide),
   ((check_anomaly_learning_spec ⟨2, 5/2, 30⟩
      [("entry", [(((1 : Nat), (8 : Nat), (0 : Nat)),
        [(⟨1, 0, 1⟩ : BEvent), ⟨2, 100, 1⟩])])] "entry" ⟨8, 0, 1, 200⟩).2.2.2.1
      [(((1 : Nat), (8 : Nat), (0 : Nat)), [(⟨1, 0, 1⟩ : BEvent), ⟨2, 100, 1⟩])]
      rfl (by decide)).1,
   (check_anomaly_learning_spec ⟨2, 5/2, 30⟩
      [("entry", [(((1 : Nat), (8 : Nat), (0 : Nat)),
        [(⟨1, 0, 1⟩ : BEvent), ⟨2, 100, 1⟩])])] "entry" ⟨8, 0, 1, 200⟩).2.2.2.2
      [(((1 : Nat), (8 : Nat), (0 : Nat)), [(⟨1, 0, 1⟩ : BEvent), ⟨2, 100, 1⟩])]
      rfl (by decide) (by decide),
   (check_anomaly_learning_spec ⟨2, 5/2, 30⟩ ([] : BPatterns) "entry"
      ⟨8, 0, 1, 200⟩).1 rfl⟩

end EdgeAI
